import Mathlib

/-!
Verification of the Event Deduplication & Consolidation Engine of the
IFI-Events repository.

The definitions below are a shallow embedding of the Python source:

* `src/models/event.py`            — the `Event` dataclass,
* `src/utils/deduplication.py`     — classifier, merge, insertion guard,
* `src/config/data_sources.py`     — the static source registry,
* `src/new_event_handler.py`       — ingestion entry point and cross-source linker,
* `scripts/helper/db_maintenance.py` — the batch consolidator,
* Python stdlib `difflib.SequenceMatcher` (used by `calculate_title_similarity`).

Modelling conventions:
* timezone-aware datetimes are modelled as `Int` timestamps in seconds;
  `timedelta(minutes = m)` is `m * 60`;
* Python `Optional` values are `Option`; Python truthiness of the values the
  code branches on is modelled explicitly (`None` and `""` are falsy for
  optional strings, `None` and `0` are falsy for optional ints);
* fallible Python code (exceptions) returns `Except PyError`;
* the similarity ratio (a Python float) and its threshold are modelled as
  exact rationals;
* the SQLAlchemy session is modelled as a `List Event` threaded through the
  functions that query or mutate it.
-/

namespace IFIEvents

set_option maxRecDepth 1000000

/-- Python truthiness of an `Optional[str]`: `None` and `""` are falsy. -/
def truthyStr (s : Option String) : Bool :=
  match s with
  | none => false
  | some t => t ≠ ""

/-- Python truthiness of an `Optional[int]`: `None` and `0` are falsy. -/
def truthyInt (n : Option Int) : Bool :=
  match n with
  | none => false
  | some m => m ≠ 0

/-- Python `x or y` on `Optional[str]` operands (returns `y` when `x` is falsy). -/
def pyOrStr (x y : Option String) : Option String :=
  if truthyStr x then x else y

/-- Python `x or y` on `Optional[int]` operands (returns `y` when `x` is falsy). -/
def pyOrInt (x y : Option Int) : Option Int :=
  if truthyInt x then x else y

/-- Python `x or y` on `Optional[datetime]` operands: a datetime is always
truthy, so this returns `x` when present, else `y`. -/
def pyOrTime (x y : Option Int) : Option Int :=
  match x with
  | some t => some t
  | none => y

/-- Python `x or ""` on an `Optional[str]` (used for `event.location or ""`):
`None` and `""` are both mapped to `""`. -/
def pyStrOrEmpty (x : Option String) : String :=
  match x with
  | none => ""
  | some s => s

/--
The `Event` dataclass from `src/models/event.py`.

The fields `fetched_at`, `parent_id`, `attachment` and `author` are read and
written by the engine (`merge_events`, the cross-source linker) but are not
declared in the dataclass present under `src/`.
Modelled from the spec: §3 declares them as provenance timestamp
(`fetched-at`), the self-referential nullable lineage pointer (`parent_id`),
and optional descriptive fields merged by the Field Merge Resolver.
-/
structure Event where
  title : String
  description : String
  start_time : Int
  end_time : Option Int
  location : Option String
  source_url : Option String
  source_name : Option String
  id : Option Int := none
  created_at : Option Int := none
  capacity : Option Int := none
  spots_left : Option Int := none
  registration_opens : Option Int := none
  registration_url : Option String := none
  food : Option String := none
  fetched_at : Option Int := none
  parent_id : Option Int := none
  attachment : Option String := none
  author : Option String := none
deriving DecidableEq, Repr

/-! ## String normalization (`src/utils/deduplication.py`) -/

/-- The whitespace characters recognised by Python `str.split()`. -/
def isPyWhitespace (c : Char) : Bool :=
  c == ' ' || c == '\t' || c == '\n' || c == '\x0d' || c == '\x0b' || c == '\x0c'

/-- `text.split()` on a character list: split on whitespace runs, no empty
words.  The second argument accumulates the current word in reverse. -/
def pySplitAux : List Char → List Char → List (List Char)
  | [], acc => if acc = [] then [] else [acc.reverse]
  | c :: cs, acc =>
    if isPyWhitespace c then
      (if acc = [] then pySplitAux cs [] else acc.reverse :: pySplitAux cs [])
    else
      pySplitAux cs (c :: acc)

/-- `' '.join(words)` on character lists. -/
def joinSpace : List (List Char) → List Char
  | [] => []
  | [w] => w
  | w :: ws => w ++ ' ' :: joinSpace ws

/-- `normalize_string`: lower-case (`IGNORE_CASE = True`) and collapse
whitespace runs via `' '.join(text.split())` (`NORMALIZE_WHITESPACE = True`);
empty input maps to `""`.  Implemented on the string's character list. -/
def normalize_string (text : String) : String :=
  if text = "" then ""
  else String.mk (joinSpace (pySplitAux (text.data.map Char.toLower) []))

/-! ## `difflib.SequenceMatcher` (Python stdlib)

`calculate_title_similarity` calls `SequenceMatcher(None, title1, title2).ratio()`.
We embed the CPython algorithm for inputs without junk elements: the call sites
pass `isjunk = None`, and `autojunk` only marks elements when the second
sequence has at least 200 elements, so for the titles evaluated in the
theorems below the junk sets are empty and `isbjunk` is constantly false
(in particular the two junk-extension loops of `find_longest_match` never
execute and are not represented). -/

/-- Ascending list of positions `j` of `b` holding character `c`
(the `b2j` table of `SequenceMatcher`). -/
def b2jList (b : List Char) (c : Char) : List Nat :=
  (List.range b.length).filter (fun j => b.get? j == some c)

/-- Association-list lookup with default `0` (the `j2len.get(j, 0)` reads). -/
def alookup (l : List (Nat × Nat)) (k : Nat) : Nat :=
  match l.find? (fun p => p.1 == k) with
  | some p => p.2
  | none => 0

/-- Inner loop of `find_longest_match`: scan the ascending occurrence list of
`a[i]` in `b`, building the new `j2len` row and updating the current best
match `(besti, bestj, bestsize)` exactly as the CPython code does
(`k = j2len.get(j-1, 0) + 1`, strict improvement check `k > bestsize`). -/
def flmRow : List Nat → Nat → Nat → Nat → Nat → List (Nat × Nat) → List (Nat × Nat) →
    Nat → Nat → (Nat × Nat × Nat) × List (Nat × Nat)
  | [], besti, bestj, bestsize, _, _, newRow, _, _ => ((besti, bestj, bestsize), newRow)
  | j :: js, besti, bestj, bestsize, i, oldRow, newRow, blo, bhi =>
    if j < blo then
      flmRow js besti bestj bestsize i oldRow newRow blo bhi
    else if bhi ≤ j then
      ((besti, bestj, bestsize), newRow)
    else
      let k := (if j = 0 then 0 else alookup oldRow (j - 1)) + 1
      let newRow' := (j, k) :: newRow
      if bestsize < k then
        flmRow js (i + 1 - k) (j + 1 - k) k i oldRow newRow' blo bhi
      else
        flmRow js besti bestj bestsize i oldRow newRow' blo bhi

/-- Outer loop of `find_longest_match`: iterate `i` over `[alo, ahi)`,
carrying the previous `j2len` row. -/
def flmScan (a b : List Char) (blo bhi : Nat) :
    List Nat → Nat → Nat → Nat → List (Nat × Nat) → Nat × Nat × Nat
  | [], besti, bestj, bestsize, _ => (besti, bestj, bestsize)
  | i :: is, besti, bestj, bestsize, oldRow =>
    match a.get? i with
    | none => (besti, bestj, bestsize)
    | some c =>
      let res := flmRow (b2jList b c) besti bestj bestsize i oldRow [] blo bhi
      flmScan a b blo bhi is res.1.1 res.1.2.1 res.1.2.2 res.2

/-- Equality test of two optional characters, false when either is absent. -/
def charsEq (x y : Option Char) : Bool :=
  match x, y with
  | some c, some d => c == d
  | _, _ => false

/-- Backward extension loop of `find_longest_match`
(`while besti > alo and bestj > blo and a[besti-1] == b[bestj-1]`).
The first `Nat` is a structural step bound: every iteration decrements
`besti` and the loop requires `besti > alo ≥ 0`, so `besti` itself bounds the
iteration count and the bound is never hit. -/
def flmExtendBack (a b : List Char) (alo blo : Nat) :
    Nat → Nat → Nat → Nat → Nat × Nat × Nat
  | 0, besti, bestj, bestsize => (besti, bestj, bestsize)
  | steps + 1, besti, bestj, bestsize =>
    if alo < besti ∧ blo < bestj ∧
        charsEq (a.get? (besti - 1)) (b.get? (bestj - 1)) = true then
      flmExtendBack a b alo blo steps (besti - 1) (bestj - 1) (bestsize + 1)
    else
      (besti, bestj, bestsize)

/-- Forward extension loop of `find_longest_match`
(`while besti+bestsize < ahi and bestj+bestsize < bhi and a[...] == b[...]`).
The first `Nat` is a structural step bound: every iteration increments
`bestsize` and the loop requires `besti + bestsize < ahi`, so `ahi` bounds
the iteration count and the bound is never hit. -/
def flmExtendFwd (a b : List Char) (ahi bhi : Nat) :
    Nat → Nat → Nat → Nat → Nat × Nat × Nat
  | 0, besti, bestj, bestsize => (besti, bestj, bestsize)
  | steps + 1, besti, bestj, bestsize =>
    if besti + bestsize < ahi ∧ bestj + bestsize < bhi ∧
        charsEq (a.get? (besti + bestsize)) (b.get? (bestj + bestsize)) = true then
      flmExtendFwd a b ahi bhi steps besti bestj (bestsize + 1)
    else
      (besti, bestj, bestsize)

/-- `SequenceMatcher.find_longest_match` restricted to `a[alo:ahi]` and
`b[blo:bhi]`, for empty junk sets. -/
def find_longest_match (a b : List Char) (alo ahi blo bhi : Nat) : Nat × Nat × Nat :=
  let scan := flmScan a b blo bhi (List.range' alo (ahi - alo)) alo blo 0 []
  let back := flmExtendBack a b alo blo scan.1 scan.1 scan.2.1 scan.2.2
  flmExtendFwd a b ahi bhi ahi back.1 back.2.1 back.2.2

/-- Total size of the matching blocks found by the recursive decomposition of
`SequenceMatcher.get_matching_blocks` (the queue recursion); this is the
quantity `ratio()` divides by the total length.  The first argument is fuel;
the top-level call supplies enough for every actual run. -/
def matchSum (a b : List Char) : Nat → Nat → Nat → Nat → Nat → Nat
  | 0, _, _, _, _ => 0
  | fuel + 1, alo, ahi, blo, bhi =>
    let r := find_longest_match a b alo ahi blo bhi
    let i := r.1
    let j := r.2.1
    let k := r.2.2
    if k = 0 then 0
    else
      k + (if alo < i ∧ blo < j then matchSum a b fuel alo i blo j else 0)
        + (if i + k < ahi ∧ j + k < bhi then matchSum a b fuel (i + k) ahi (j + k) bhi else 0)

/-- `SequenceMatcher.ratio()`: `2 * M / T` where `M` is the number of matched
elements and `T` the total length; `1` when both sequences are empty
(`_calculate_ratio`). -/
def sequence_matcher_ratio (a b : List Char) : ℚ :=
  let la := a.length
  let lb := b.length
  if la + lb = 0 then 1
  else mkRat (2 * (matchSum a b (la + lb + 1) 0 la 0 lb) : Int) (la + lb)

/-- `calculate_title_similarity`: normalize both titles, then the
`SequenceMatcher` ratio. -/
def calculate_title_similarity (title1 title2 : String) : ℚ :=
  sequence_matcher_ratio (normalize_string title1).data (normalize_string title2).data

/-! ## Duplicate classifier (`src/utils/deduplication.py`) -/

/-- The module-level deduplication constants, gathered into a configuration
record so that the theorems can quantify over threshold configurations. -/
structure DuplicateConfig where
  title_similarity_threshold : ℚ
  time_window_minutes : Int
  require_same_location : Bool
  require_exact_time : Bool
  require_same_source : Bool
deriving DecidableEq, Repr

def TITLE_SIMILARITY_THRESHOLD : ℚ := mkRat 85 100

def TIME_WINDOW_MINUTES : Int := 120

def REQUIRE_SAME_LOCATION : Bool := false

def REQUIRE_EXACT_TIME : Bool := false

def REQUIRE_SAME_SOURCE : Bool := true

/-- The configuration the module constants of `deduplication.py` define. -/
def defaultConfig : DuplicateConfig :=
  { title_similarity_threshold := TITLE_SIMILARITY_THRESHOLD
    time_window_minutes := TIME_WINDOW_MINUTES
    require_same_location := REQUIRE_SAME_LOCATION
    require_exact_time := REQUIRE_EXACT_TIME
    require_same_source := REQUIRE_SAME_SOURCE }

/-- `are_events_duplicate`: the duplicate classifier.  The four checks
short-circuit in source order: source, title similarity, time, location.
`timedelta(minutes = m)` is `m * 60` seconds. -/
def are_events_duplicate (cfg : DuplicateConfig) (event1 event2 : Event) : Bool :=
  if cfg.require_same_source &&
      (!truthyStr event1.source_name || !truthyStr event2.source_name ||
       event1.source_name != event2.source_name) then
    false
  else if calculate_title_similarity event1.title event2.title <
      cfg.title_similarity_threshold then
    false
  else if (if cfg.require_exact_time then
             event1.start_time != event2.start_time || event1.end_time != event2.end_time
           else
             decide (|event1.start_time - event2.start_time| >
               cfg.time_window_minutes * 60)) then
    false
  else if cfg.require_same_location &&
      (normalize_string (pyStrOrEmpty event1.location) !=
       normalize_string (pyStrOrEmpty event2.location)) then
    false
  else
    true

/-! ## Field merge resolver (`merge_events` and `EVENT_MERGE_STRATEGIES`) -/

/-- `datetime.min` (substituted when `fetched_at` is absent), as a timestamp. -/
def datetimeMin : Int := -62135596800

/-- `event.fetched_at or datetime.min.replace(tzinfo=...)`: a present datetime
is always truthy. -/
def fetchedTime (e : Event) : Int :=
  match e.fetched_at with
  | some t => t
  | none => datetimeMin

/-- `base_event = event2 if event2_time > event1_time else event1`: the second
event is the base exactly when its fetch time is strictly later. -/
def mergeBaseIsSecond (event1 event2 : Event) : Bool :=
  fetchedTime event1 < fetchedTime event2

/-- The `EVENT_MERGE_STRATEGIES` dictionary applied by `merge_events` to
`(base_event, other_event)` via `setattr` in dict insertion order
(id, description, start_time, end_time, created_at, registration_opens,
source_name, attachment, author), followed by the saved source-name
restoration.  Each strategy reads only the field it recomputes, so the
sequential `setattr` updates are written as sequential record updates. -/
def applyMergeStrategies (base other : Event) : Event :=
  -- `source_name = base.source_name if base.source_name == other.source_name else None`,
  -- saved before the strategies run
  let saved_source := if base.source_name = other.source_name then base.source_name else none
  -- 'id': e1.id or e2.id  (Python truthiness: 0 and None are falsy)
  let b := { base with id := pyOrInt base.id other.id }
  -- 'description': append the other description when non-empty and different
  let b := { b with description :=
    if other.description ≠ "" ∧ other.description ≠ b.description then
      b.description ++ "\n\nAlternative description:\n" ++ other.description
    else b.description }
  -- 'start_time': min
  let b := { b with start_time := min b.start_time other.start_time }
  -- 'end_time': max when both present, else whichever is present
  let b := { b with end_time :=
    match b.end_time, other.end_time with
    | some x, some y => some (max x y)
    | _, _ => pyOrTime b.end_time other.end_time }
  -- 'created_at': min when both present, else whichever is present
  let b := { b with created_at :=
    match b.created_at, other.created_at with
    | some x, some y => some (min x y)
    | _, _ => pyOrTime b.created_at other.created_at }
  -- 'registration_opens': min when both present, else whichever is present
  let b := { b with registration_opens :=
    match b.registration_opens, other.registration_opens with
    | some x, some y => some (min x y)
    | _, _ => pyOrTime b.registration_opens other.registration_opens }
  -- 'source_name': keep when equal, else first truthy
  let b := { b with source_name :=
    (if b.source_name = other.source_name then b.source_name
     else pyOrStr b.source_name other.source_name) }
  -- 'attachment': prefer the other event's attachment when truthy
  let b := { b with attachment :=
    (if truthyStr other.attachment then other.attachment else b.attachment) }
  -- 'author': comma-concatenate when both truthy and different, else first truthy
  let b := { b with author :=
    match b.author, other.author with
    | some x, some y =>
      if x ≠ "" ∧ y ≠ "" ∧ x ≠ y then some (x ++ ", " ++ y)
      else pyOrStr (some x) (some y)
    | _, _ => pyOrStr b.author other.author }
  -- `if source_name: base_event.source_name = source_name`
  if truthyStr saved_source then { b with source_name := saved_source } else b

/-- `merge_events`: pick the base by fetch time, apply the strategies to it.
The Python function mutates the base argument in place and returns it;
this is the value it returns. -/
def merge_events (event1 event2 : Event) : Event :=
  if mergeBaseIsSecond event1 event2 then applyMergeStrategies event2 event1
  else applyMergeStrategies event1 event2

/-- Post-states of the two argument objects after a `merge_events` call:
the base argument has been overwritten field by field, the other argument is
untouched. -/
def merge_events_post (event1 event2 : Event) : Event × Event :=
  if mergeBaseIsSecond event1 event2 then (event1, applyMergeStrategies event2 event1)
  else (applyMergeStrategies event1 event2, event2)

/-- `check_duplicate_before_insert`: query persisted events whose start time
lies within the time window (SQL `BETWEEN` is inclusive), restricted to the
same source when `REQUIRE_SAME_SOURCE`, and return the first classifier
match.  The store stands for the session's table of events. -/
def check_duplicate_before_insert (store : List Event) (new_event : Event) : Option Event :=
  let time_window := TIME_WINDOW_MINUTES * 60
  let startT := new_event.start_time - time_window
  let endT := new_event.start_time + time_window
  let potential := store.filter (fun e =>
    decide (startT ≤ e.start_time ∧ e.start_time ≤ endT) &&
    (!REQUIRE_SAME_SOURCE || e.source_name == new_event.source_name))
  potential.find? (fun existing => are_events_duplicate defaultConfig new_event existing)

/-! ## Source registry (`src/config/data_sources.py`) -/

structure ScraperRegistration where
  enabled : Bool
  scraper_class : String
  priority : Int
  name : String
deriving DecidableEq, Repr

/-- The static `SOURCES` registry, in dict insertion order. -/
def SOURCES : List (String × ScraperRegistration) := [
  ("peoply", ⟨true, "src.scrapers.peoply.PeoplyScraper", 100, "Peoply"⟩),
  ("navet", ⟨true, "src.scrapers.navet.NavetScraper", 90, "Navet"⟩),
  ("facebook-post", ⟨true, "src.scrapers.facebook_post.FacebookGroupScraper", 10, "Facebook Post"⟩),
  ("facebook-event", ⟨false, "src.scrapers.facebook_event.FacebookEventScraper", 70, "Facebook Event"⟩)]

/-- The Python exceptions the embedded functions can raise, plus a marker for
a loop that never terminates. -/
inductive PyError where
  | valueError : String → PyError
  | databaseError : String → PyError
  | attributeError : PyError
  | nonTermination : PyError
deriving DecidableEq, Repr

/-- `get_source_display_name`: dict lookup by source id, `ValueError` when
absent. -/
def get_source_display_name (source_id : String) : Except PyError String :=
  match SOURCES.find? (fun p => p.1 == source_id) with
  | some p => .ok p.2.name
  | none => .error (.valueError ("No source found with ID: " ++ source_id))

/-- `get_source_id_by_display_name`: linear scan of the registry comparing the
`name` field, `ValueError` when no registration matches. -/
def get_source_id_by_display_name (display_name : String) : Except PyError String :=
  match SOURCES.find? (fun p => p.2.name == display_name) with
  | some p => .ok p.1
  | none => .error (.valueError ("No source found with display name: " ++ display_name))

/-- `SOURCES[source_id].priority`; the callers only pass ids just returned by
`get_source_id_by_display_name`, so the key is always present. -/
def sourcePriority (source_id : String) : Int :=
  match SOURCES.find? (fun p => p.1 == source_id) with
  | some p => p.2.priority
  | none => 0

/-- `compare_source_priorities`: resolve both display names to ids (each
lookup can raise `ValueError`), then compare the static priorities. -/
def compare_source_priorities (name1 name2 : String) : Except PyError Int :=
  match get_source_id_by_display_name name1 with
  | .error e => .error e
  | .ok source1 =>
    match get_source_id_by_display_name name2 with
    | .error e => .error e
    | .ok source2 =>
      let priority1 := sourcePriority source1
      let priority2 := sourcePriority source2
      .ok (if priority1 > priority2 then 1 else if priority1 < priority2 then -1 else 0)

/-! ## Batch consolidator (`scripts/helper/db_maintenance.py`)

`_find_and_merge_duplicates` iterates over a list of session objects, and
`merge_events` mutates its base argument in place.  The embedding therefore
threads object post-states explicitly:

* `processed_ids.add(event2.id)` executes after the merge, so when `event2`
  was the merge base the id recorded is the merged id (`event2.id` may have
  just been overwritten by `base.id or other.id`);
* the scanned events are returned as a list of post-states (`scanned`),
  because later passes of the outer loop read the mutated objects;
* `current_event` always aliases one object — `event1` until a merge picks
  `event2` as base, from then on that `event2`'s slot.  `e1post` is the final
  state of the object passed in as the accumulator: the accumulator's value
  at the moment the alias moved away (the object is never touched again), or
  its final value if the alias never moved. -/

/-- Result of one inner pass of `_find_and_merge_duplicates`. -/
structure InnerResult where
  current : Event
  e1post : Event
  scanned : List Event
  processed : List (Option Int)
  merges : Nat
deriving DecidableEq, Repr

/-- Inner loop of `_find_and_merge_duplicates`: scan the events after
`event1` with the running accumulator, skipping events whose (current) id is
in the processed set, merging each classifier match into the accumulator —
`merge_events` mutating whichever of the two is the base — and recording the
absorbed event's post-merge id. -/
def innerLoop : Event → List Event → List (Option Int) → InnerResult
  | current, [], processed => ⟨current, current, [], processed, 0⟩
  | current, event2 :: rest, processed =>
    if event2.id ∈ processed then
      let r := innerLoop current rest processed
      ⟨r.current, r.e1post, event2 :: r.scanned, r.processed, r.merges⟩
    else if are_events_duplicate defaultConfig current event2 then
      if mergeBaseIsSecond current event2 then
        -- the merge mutates `event2`, which becomes the accumulator object;
        -- `processed_ids.add(event2.id)` reads the post-merge id, and the
        -- recursion's `e1post` is this slot's final state
        let r := innerLoop (merge_events current event2) rest
          ((merge_events current event2).id :: processed)
        ⟨r.current, current, r.e1post :: r.scanned, r.processed, r.merges + 1⟩
      else
        -- the merge mutates the accumulator object itself; `event2` is
        -- unchanged and its id is recorded as is
        let r := innerLoop (merge_events current event2) rest (event2.id :: processed)
        ⟨r.current, r.e1post, event2 :: r.scanned, r.processed, r.merges + 1⟩
    else
      let r := innerLoop current rest processed
      ⟨r.current, r.e1post, event2 :: r.scanned, r.processed, r.merges⟩

/-- Outer loop of `_find_and_merge_duplicates`, with an explicit structural
recursion bound (the recursive call runs on the inner pass's scanned list,
which is not a structural sublist; since the inner pass returns exactly as
many scanned events as it was given, a bound equal to the list length always
suffices — `outerLoopF_fuel`): for each event (in its current, possibly
mutated state) not yet processed, run the inner pass, append the accumulator
and record `event1`'s post-pass id (`processed_ids.add(event1.id)` runs after
the inner loop may have mutated `event1` as a merge base).  Appending the
accumulator's value is faithful to Python's append-by-reference because the
object is never mutated after its pass: each merge records the absorbed
partner's id immediately, so every slot the accumulator ever occupies keeps
an id that is in the processed set, and later passes skip it before any
merge could touch it. -/
def outerLoopF : Nat → List Event → List (Option Int) → List Event × Nat
  | _, [], _ => ([], 0)
  | 0, _ :: _, _ => ([], 0)
  | fuel + 1, event1 :: rest, processed =>
    if event1.id ∈ processed then outerLoopF fuel rest processed
    else
      let r := innerLoop event1 rest processed
      let r2 := outerLoopF fuel r.scanned (r.e1post.id :: r.processed)
      (r.current :: r2.1, r.merges + r2.2)

/-- The outer loop at its sufficient bound. -/
def outerLoop (events : List Event) (processed : List (Option Int)) :
    List Event × Nat :=
  outerLoopF events.length events processed

/-- `_find_and_merge_duplicates`: the batch consolidator on an in-memory list,
returning the merged list and the duplicate count. -/
def _find_and_merge_duplicates (events : List Event) : List Event × Nat :=
  outerLoop events []

/-- A list containing exactly `k` duplicate pairs and no duplicate chains,
stated relative to the classifier and merge the consolidator runs: each event
either duplicates nothing after it, or has exactly one partner ahead of it —
no match before the partner, and the merged accumulator matches nothing after
it (merging must not chain into further duplicates). -/
inductive Clean : List Event → Nat → Prop where
  | nil : Clean [] 0
  | single : (e : Event) → (rest : List Event) → (k : Nat) →
      (∀ y ∈ rest, are_events_duplicate defaultConfig e y = false) →
      Clean rest k → Clean (e :: rest) k
  | paired : (e p : Event) → (l1 l2 : List Event) → (k : Nat) →
      (∀ y ∈ l1, are_events_duplicate defaultConfig e y = false) →
      are_events_duplicate defaultConfig e p = true →
      (∀ y ∈ l2, are_events_duplicate defaultConfig (merge_events e p) y = false) →
      Clean (l1 ++ l2) k → Clean (e :: (l1 ++ p :: l2)) (k + 1)

/-! ## Ingestion handler (`src/new_event_handler.py`) -/

/-- Result of the `while topmost_parent.parent_id is not None` walk of
`process_cross_source_duplicate`reading it with a step bound:
`root` is normal termination at a record with null `parent_id`;
`missingParent` is `session.query(Event).get` returning `None` (the next
loop iteration then raises `AttributeError`); `outOfFuel` records that the
unbounded Python loop has not terminated within the given number of hops. -/
inductive WalkResult where
  | root : Event → WalkResult
  | missingParent : WalkResult
  | outOfFuel : WalkResult
deriving DecidableEq, Repr

/-- `session.query(Event).get(pid)`: fetch by primary key. -/
def getEventById (store : List Event) (pid : Int) : Option Event :=
  store.find? (fun e => e.id == some pid)

/-- The parent-chain walk of `process_cross_source_duplicate`, bounded by
fuel.  The Python loop itself has no bound: exhausting every fuel value means
the loop runs forever. -/
def walkParents (store : List Event) : Nat → Event → WalkResult
  | 0, _ => .outOfFuel
  | fuel + 1, cur =>
    match cur.parent_id with
    | none => .root cur
    | some pid =>
      match getEventById store pid with
      | none => .missingParent
      | some nxt => walkParents store fuel nxt

/-- `compare_source_priority`: order two events by the priority of their
source names (display names); ties keep the first argument first.  A missing
source name reaches `get_source_id_by_display_name(None)`, where no
registration name compares equal, hence the same `ValueError`. -/
def compare_source_priority (event1 event2 : Event) : Except PyError (Event × Event) :=
  match event1.source_name, event2.source_name with
  | some n1, some n2 =>
    match compare_source_priorities n1 n2 with
    | .error e => .error e
    | .ok comparison => .ok (if comparison ≥ 0 then (event1, event2) else (event2, event1))
  | none, _ => .error (.valueError "No source found with display name: None")
  | _, none => .error (.valueError "No source found with display name: None")

/-- `process_cross_source_duplicate`: order the pair by priority, walk the
higher-priority event's parent chain to the topmost parent, and set the
lower-priority event's `parent_id` to the topmost parent's id.  Returns the
pre- and post-state of the lower-priority event. -/
def process_cross_source_duplicate (store : List Event) (event1 event2 : Event)
    (fuel : Nat) : Except PyError (Event × Event) :=
  match compare_source_priority event1 event2 with
  | .error e => .error e
  | .ok hl =>
    match walkParents store fuel hl.1 with
    | .root topmost => .ok (hl.2, { hl.2 with parent_id := topmost.id })
    | .missingParent => .error .attributeError
    | .outOfFuel => .error .nonTermination

/-- Modelled from the spec: `are_events_cross_source_duplicate` is imported
from `src/utils/deduplication.py` by the handler but its definition is not in
the source tree; §4.6 specifies a relaxed classifier configuration with no
same-source requirement. -/
def are_events_cross_source_duplicate (event1 event2 : Event) : Bool :=
  are_events_duplicate { defaultConfig with require_same_source := false } event1 event2

/-- Loop body of `check_and_process_cross_source_duplicates`: process each
candidate the relaxed classifier matches, threading the session state.  The
updated lower-priority record replaces its pre-state in the store (Python
mutates the one session object). -/
def crossLoop (fuel : Nat) (new_event : Event) : List Event → List Event → Except PyError (List Event)
  | [], store => .ok store
  | cand :: cands, store =>
    if are_events_cross_source_duplicate new_event cand then
      match process_cross_source_duplicate store new_event cand fuel with
      | .error e => .error e
      | .ok lowpair =>
        crossLoop fuel new_event cands (store.map (fun x => if x = lowpair.1 then lowpair.2 else x))
    else crossLoop fuel new_event cands store

/-- `check_and_process_cross_source_duplicates`: query the events with a
different id and a different source name, and process each relaxed-classifier
match. -/
def check_and_process_cross_source_duplicates (fuel : Nat) (store : List Event)
    (new_event : Event) : Except PyError (List Event) :=
  let potential := store.filter (fun e =>
    e.id != new_event.id && e.source_name != new_event.source_name)
  crossLoop fuel new_event potential store

/-- Smallest positive id not yet used: the autoincrement primary key the store
assigns on flush. -/
def nextFreeId (store : List Event) : Int :=
  1 + store.foldr (fun e acc => match e.id with | some i => max i acc | none => acc) 0

/-- A record added to the session receives its id when flushed. -/
def assignId (store : List Event) (e : Event) : Event :=
  match e.id with
  | some _ => e
  | none => { e with id := some (nextFreeId store) }

/-- One iteration of the `for event in events` loop of `process_new_events`:
resolve the source name when unset (`ValueError` aborts), then either insert
directly (`skip_merging`), merge into an insertion-guard match, or insert and
run the cross-source linker.  Returns the new store and the increments of
`(new_count, update_count)`. -/
def process_one_event (fuel : Nat) (source_id : String) (skip_merging : Bool)
    (store : List Event) (event0 : Event) : Except PyError (List Event × Nat × Nat) :=
  let named :=
    if truthyStr event0.source_name then Except.ok event0
    else
      match get_source_display_name source_id with
      | .ok n => .ok { event0 with source_name := some n }
      | .error e => .error e
  match named with
  | .error e => .error e
  | .ok event =>
    if skip_merging then
      .ok (store ++ [assignId store event], 1, 0)
    else
      match check_duplicate_before_insert store event with
      | some existing =>
        -- merge, then copy every public attribute of the merged record onto
        -- the existing session object
        let merged := merge_events existing event
        .ok (store.map (fun x => if x = existing then merged else x), 0, 1)
      | none =>
        let event' := assignId store event
        let store' := store ++ [event']
        match check_and_process_cross_source_duplicates fuel store' event' with
        | .error e => .error e
        | .ok store2 => .ok (store2, 1, 0)

/-- The `for` loop of `process_new_events`: events processed in order, any
exception propagating to the surrounding handler. -/
def process_new_events_loop (fuel : Nat) (source_id : String) (skip_merging : Bool) :
    List Event → List Event → Nat → Nat → Except PyError (List Event × Nat × Nat)
  | [], store, new_count, update_count => .ok (store, new_count, update_count)
  | e :: es, store, new_count, update_count =>
    match process_one_event fuel source_id skip_merging store e with
    | .error err => .error err
    | .ok r =>
      process_new_events_loop fuel source_id skip_merging es r.1
        (new_count + r.2.1) (update_count + r.2.2)

/-- `process_new_events`: empty input short-circuits to `(0, 0)`; otherwise
the whole loop runs inside one `try`, and any exception is re-raised as
`DatabaseError` (a diverging loop simply never returns). -/
def process_new_events (fuel : Nat) (events : List Event) (source_id : String)
    (skip_merging : Bool) (store : List Event) : Except PyError (List Event × Nat × Nat) :=
  if events.isEmpty then .ok (store, 0, 0)
  else
    match process_new_events_loop fuel source_id skip_merging events store 0 0 with
    | .ok r => .ok r
    | .error .nonTermination => .error .nonTermination
    | .error _ => .error (.databaseError "Failed to process events")

/-- `Except.isOk` as a plain definition. -/
def exceptIsOk {α : Type} (r : Except PyError α) : Bool :=
  match r with
  | .ok _ => true
  | .error _ => false

/-! ## Concrete instances used by the witnesses and counterexamples -/

/-- Builder for the concrete event records below (remaining fields default). -/
def mkEvent (title : String) (source_name : Option String) (start_time : Int)
    (id : Option Int) : Event :=
  { title := title, description := "", start_time := start_time, end_time := none,
    location := none, source_url := none, source_name := source_name, id := id }

/-- Event titled `abaababbabbabb`. -/
def asymEvent1 : Event := mkEvent "abaababbabbabb" (some "Navet") 0 (some 1)

/-- Event titled `baabbabbabbab`: `SequenceMatcher` scores these two titles
`8/9` in one order and `22/27` in the other, straddling the `0.85` default. -/
def asymEvent2 : Event := mkEvent "baabbabbabbab" (some "Navet") 0 (some 2)

/-- Two events used to instantiate the symmetric case of the classifier. -/
def symEvent1 : Event := mkEvent "Guest Lecture" (some "Navet") 0 (some 1)

def symEvent2 : Event := mkEvent "Guest Lecture" (some "Navet") 3600 (some 2)

/-- Store with a `parent_id` cycle: event 1 points to event 2 and back. -/
def cycEventA : Event := { mkEvent "Cyclic event" (some "Peoply") 0 (some 1) with parent_id := some 2 }

def cycEventB : Event := { mkEvent "Cyclic event" (some "Navet") 0 (some 2) with parent_id := some 1 }

def cycStore : List Event := [cycEventA, cycEventB]

/-- An event with no source name: processing it with an unregistered source id
raises `ValueError` inside the batch loop. -/
def badEvent : Event := mkEvent "First talk" none 0 none

def goodEvent : Event := mkEvent "Second talk" (some "Peoply") 0 none

/-- `goodEvent` as persisted by a run against an empty store. -/
def goodEventStored : Event := { goodEvent with id := some 1 }

/-- Batch-consolidation instance: `batchEv1` and `batchEv2` are duplicates,
`batchEv3` matches nothing (different source). -/
def batchEv1 : Event := mkEvent "ab" (some "A") 0 (some 1)

def batchEv2 : Event := mkEvent "ab" (some "A") 0 (some 2)

def batchEv3 : Event := mkEvent "zz" (some "B") 0 (some 3)

/-- An event holding the persisted id `0` (falsy in Python). -/
def zeroIdEvent : Event := mkEvent "x" (some "Navet") 0 (some 0)

def noIdEvent : Event := mkEvent "x" (some "Navet") 0 none

def sevenIdEvent : Event := mkEvent "x" (some "Navet") 0 (some 7)

/-- Events for the time-window boundary: same title and source, start times
`0`, `7200` (exactly 120 minutes later) and `7260` (121 minutes later). -/
def windowEvA : Event := mkEvent "Lecture" (some "Navet") 0 (some 1)

def windowEvB : Event := mkEvent "Lecture" (some "Navet") 7200 (some 2)

def windowEvC : Event := mkEvent "Lecture" (some "Navet") 7260 (some 3)

/-- A null-id event that duplicates nothing in the batch instances. -/
def nullIdEvent : Event := mkEvent "qq" (some "C") 0 none

/-- Events showing the id-laundering of an absorbed merge base: `laundEvB`
(null id, fetched later) duplicates `laundEvA` (id 5) and becomes the merge
base, so its recorded id is the merged `some 5`, not `none`. -/
def laundEvA : Event := { mkEvent "ab" (some "A") 0 (some 5) with fetched_at := some 0 }

def laundEvB : Event := { mkEvent "ab" (some "A") 0 none with fetched_at := some 10 }

/-- A later null-id event matching nothing (different source). -/
def laundEvC : Event := mkEvent "zz" (some "Q") 0 none

/-! ## Shared helper lemmas -/

lemma bneSymm {α : Type} [BEq α] [LawfulBEq α] (a b : α) : (a != b) = (b != a) := by
  by_cases hab : a = b
  · subst hab; rfl
  · have h1 : (a == b) = false := beq_eq_false_iff_ne.mpr hab
    have h2 : (b == a) = false := beq_eq_false_iff_ne.mpr (Ne.symm hab)
    simp [bne, h1, h2]

lemma srcCondSymm (cfg : DuplicateConfig) (e1 e2 : Event) :
    (cfg.require_same_source &&
      (!truthyStr e1.source_name || !truthyStr e2.source_name ||
       e1.source_name != e2.source_name)) =
    (cfg.require_same_source &&
      (!truthyStr e2.source_name || !truthyStr e1.source_name ||
       e2.source_name != e1.source_name)) := by
  rw [bneSymm e1.source_name e2.source_name]
  cases truthyStr e1.source_name <;> cases truthyStr e2.source_name <;> simp

lemma timeCondSymm (cfg : DuplicateConfig) (e1 e2 : Event) :
    (if cfg.require_exact_time then
       e1.start_time != e2.start_time || e1.end_time != e2.end_time
     else
       decide (|e1.start_time - e2.start_time| > cfg.time_window_minutes * 60)) =
    (if cfg.require_exact_time then
       e2.start_time != e1.start_time || e2.end_time != e1.end_time
     else
       decide (|e2.start_time - e1.start_time| > cfg.time_window_minutes * 60)) := by
  congr 1
  · rw [bneSymm e1.start_time e2.start_time, bneSymm e1.end_time e2.end_time]
  · rw [abs_sub_comm]

lemma locCondSymm (cfg : DuplicateConfig) (e1 e2 : Event) :
    (cfg.require_same_location &&
      (normalize_string (pyStrOrEmpty e1.location) !=
       normalize_string (pyStrOrEmpty e2.location))) =
    (cfg.require_same_location &&
      (normalize_string (pyStrOrEmpty e2.location) !=
       normalize_string (pyStrOrEmpty e1.location))) := by
  rw [bneSymm]

lemma applyMergeStrategies_id (base other : Event) :
    (applyMergeStrategies base other).id = pyOrInt base.id other.id := by
  unfold applyMergeStrategies
  dsimp only
  repeat' split
  all_goals rfl

lemma cyc_walk_out_of_fuel : ∀ n : Nat,
    walkParents cycStore n cycEventA = WalkResult.outOfFuel ∧
    walkParents cycStore n cycEventB = WalkResult.outOfFuel := by
  intro n
  induction n with
  | zero => exact ⟨rfl, rfl⟩
  | succ m ih =>
    refine ⟨?_, ?_⟩
    · have h : walkParents cycStore (m + 1) cycEventA = walkParents cycStore m cycEventB := rfl
      rw [h]
      exact ih.2
    · have h : walkParents cycStore (m + 1) cycEventB = walkParents cycStore m cycEventA := rfl
      rw [h]
      exact ih.1

/-- The merged record's id is one of the two input ids (the id strategy
returns `base.id or other.id`). -/
lemma merge_events_id_choices (a b : Event) :
    (merge_events a b).id = a.id ∨ (merge_events a b).id = b.id := by
  unfold merge_events
  by_cases hb : mergeBaseIsSecond a b = true
  · rw [if_pos hb, applyMergeStrategies_id]
    unfold pyOrInt
    split
    · right; rfl
    · left; rfl
  · rw [if_neg hb, applyMergeStrategies_id]
    unfold pyOrInt
    split
    · left; rfl
    · right; rfl

/-- The inner loop only ever adds ids to the processed set. -/
lemma innerLoop_processed_subset (l : List Event) :
    ∀ (current : Event) (processed : List (Option Int)) (x : Option Int),
      x ∈ processed → x ∈ (innerLoop current l processed).processed := by
  induction l with
  | nil =>
    intro current processed x hx
    exact hx
  | cons e rest ih =>
    intro current processed x hx
    simp only [innerLoop]
    split_ifs with h1 h2 h3
    · exact ih current processed x hx
    · exact ih (merge_events current e) ((merge_events current e).id :: processed) x
        (List.mem_cons_of_mem _ hx)
    · exact ih (merge_events current e) (e.id :: processed) x (List.mem_cons_of_mem _ hx)
    · exact ih current processed x hx

/-- An inner-loop pass over unprocessed events that the accumulator matches
nowhere changes nothing. -/
lemma innerLoop_no_match (l : List Event) :
    ∀ (current : Event) (processed : List (Option Int)),
      (∀ y ∈ l, y.id ∉ processed ∧ are_events_duplicate defaultConfig current y = false) →
      innerLoop current l processed = ⟨current, current, l, processed, 0⟩ := by
  induction l with
  | nil =>
    intro current processed _
    rfl
  | cons e rest ih =>
    intro current processed h
    obtain ⟨hnp, hnd⟩ := h e (List.mem_cons_self e rest)
    simp only [innerLoop]
    rw [if_neg hnp, if_neg (by simp [hnd]),
      ih current processed (fun y hy => h y (List.mem_cons_of_mem _ hy))]

/-- An inner-loop pass that matches exactly its partner `p` (nothing before
it, and nothing after the merge): the accumulator becomes the merged record;
which id is recorded, which slot holds the merged record and which object is
`event1`'s post-state depend on which of the two was the merge base. -/
lemma innerLoop_pair (l1 : List Event) :
    ∀ (e p : Event) (l2 : List Event) (processed : List (Option Int)),
      (∀ y ∈ l1, y.id ∉ processed ∧ are_events_duplicate defaultConfig e y = false) →
      p.id ∉ processed →
      are_events_duplicate defaultConfig e p = true →
      (∀ y ∈ l2, y.id ∉ processed ∧ y.id ≠ p.id ∧ y.id ≠ (merge_events e p).id ∧
        are_events_duplicate defaultConfig (merge_events e p) y = false) →
      innerLoop e (l1 ++ p :: l2) processed =
        (if mergeBaseIsSecond e p then
          ⟨merge_events e p, e, l1 ++ merge_events e p :: l2,
            (merge_events e p).id :: processed, 1⟩
        else
          ⟨merge_events e p, merge_events e p, l1 ++ p :: l2,
            p.id :: processed, 1⟩) := by
  induction l1 with
  | nil =>
    intro e p l2 processed h1 hp hdup h2
    have hside1 : ∀ y ∈ l2, y.id ∉ p.id :: processed ∧
        are_events_duplicate defaultConfig (merge_events e p) y = false := by
      intro y hy
      obtain ⟨hy1, hy2, hy3, hy4⟩ := h2 y hy
      refine ⟨?_, hy4⟩
      intro hc
      rcases List.mem_cons.mp hc with h | h
      · exact hy2 h
      · exact hy1 h
    have hside2 : ∀ y ∈ l2, y.id ∉ (merge_events e p).id :: processed ∧
        are_events_duplicate defaultConfig (merge_events e p) y = false := by
      intro y hy
      obtain ⟨hy1, hy2, hy3, hy4⟩ := h2 y hy
      refine ⟨?_, hy4⟩
      intro hc
      rcases List.mem_cons.mp hc with h | h
      · exact hy3 h
      · exact hy1 h
    simp only [List.nil_append, innerLoop]
    rw [if_neg hp, if_pos hdup]
    by_cases hb : mergeBaseIsSecond e p = true
    · rw [if_pos hb, if_pos hb,
        innerLoop_no_match l2 (merge_events e p)
          ((merge_events e p).id :: processed) hside2]
    · rw [if_neg hb, if_neg hb,
        innerLoop_no_match l2 (merge_events e p) (p.id :: processed) hside1]
  | cons y l1' ih =>
    intro e p l2 processed h1 hp hdup h2
    obtain ⟨hy1, hy2⟩ := h1 y (List.mem_cons_self y l1')
    simp only [List.cons_append, innerLoop, List.append_eq]
    rw [if_neg hy1, if_neg (by simp [hy2]),
      ih e p l2 processed (fun z hz => h1 z (List.mem_cons_of_mem _ hz)) hp hdup h2]
    by_cases hb : mergeBaseIsSecond e p = true
    · rw [if_pos hb, if_pos hb]
    · rw [if_neg hb, if_neg hb]

/-- An event whose id is already processed is skipped by the inner loop: the
pass result is that of the list without it, except that the event stays,
unchanged, in its slot of the scanned list. -/
lemma innerLoop_skip_splice (x : Event) (l1 : List Event) :
    ∀ (l2 : List Event) (current : Event) (processed : List (Option Int)),
      x.id ∈ processed →
      innerLoop current (l1 ++ x :: l2) processed =
        ⟨(innerLoop current (l1 ++ l2) processed).current,
         (innerLoop current (l1 ++ l2) processed).e1post,
         (innerLoop current (l1 ++ l2) processed).scanned.take l1.length ++
           x :: (innerLoop current (l1 ++ l2) processed).scanned.drop l1.length,
         (innerLoop current (l1 ++ l2) processed).processed,
         (innerLoop current (l1 ++ l2) processed).merges⟩ := by
  induction l1 with
  | nil =>
    intro l2 current processed hp
    simp only [List.nil_append, List.length_nil, List.take_zero, List.drop_zero, innerLoop]
    rw [if_pos hp]
  | cons y l1' ih =>
    intro l2 current processed hp
    simp only [List.cons_append, innerLoop, List.append_eq, List.length_cons,
      List.take_succ_cons, List.drop_succ_cons]
    split_ifs with h1 h2 h3
    · rw [ih l2 current processed hp]
      simp only [List.take_succ_cons, List.drop_succ_cons, List.cons_append]
    · rw [ih l2 (merge_events current y)
        ((merge_events current y).id :: processed) (List.mem_cons_of_mem _ hp)]
      simp only [List.take_succ_cons, List.drop_succ_cons, List.cons_append]
    · rw [ih l2 (merge_events current y) (y.id :: processed) (List.mem_cons_of_mem _ hp)]
      simp only [List.take_succ_cons, List.drop_succ_cons, List.cons_append]
    · rw [ih l2 current processed hp]
      simp only [List.take_succ_cons, List.drop_succ_cons, List.cons_append]

/-- The inner pass returns exactly as many scanned events as it was given. -/
lemma innerLoop_scanned_length (l : List Event) :
    ∀ (current : Event) (processed : List (Option Int)),
      (innerLoop current l processed).scanned.length = l.length := by
  induction l with
  | nil =>
    intro current processed
    rfl
  | cons e rest ih =>
    intro current processed
    simp only [innerLoop]
    split_ifs with h1 h2 h3 <;>
      simp only [List.length_cons, ih]

/-- The bound of `outerLoopF` is irrelevant once it covers the list length. -/
lemma outerLoopF_fuel (n : Nat) :
    ∀ (m : Nat) (l : List Event) (processed : List (Option Int)),
      l.length ≤ n → l.length ≤ m →
      outerLoopF n l processed = outerLoopF m l processed := by
  induction n with
  | zero =>
    intro m l processed hn hm
    cases l with
    | nil => cases m <;> rfl
    | cons x rest => simp at hn
  | succ n ih =>
    intro m l processed hn hm
    cases l with
    | nil => cases m <;> rfl
    | cons x rest =>
      cases m with
      | zero => simp at hm
      | succ m =>
        simp only [List.length_cons] at hn hm
        simp only [outerLoopF]
        by_cases hx : x.id ∈ processed
        · rw [if_pos hx, if_pos hx, ih m rest processed (by omega) (by omega)]
        · rw [if_neg hx, if_neg hx]
          have hs := innerLoop_scanned_length rest x processed
          rw [ih m (innerLoop x rest processed).scanned
            ((innerLoop x rest processed).e1post.id ::
              (innerLoop x rest processed).processed)
            (by rw [hs]; omega) (by rw [hs]; omega)]

/-- Any sufficient bound computes `outerLoop`. -/
lemma outerLoopF_eq (n : Nat) (l : List Event) (processed : List (Option Int))
    (h : l.length ≤ n) : outerLoopF n l processed = outerLoop l processed :=
  outerLoopF_fuel n l.length l processed h (Nat.le_refl _)

/-- One-step unfolding of the outer loop. -/
lemma outerLoop_cons (event1 : Event) (rest : List Event)
    (processed : List (Option Int)) :
    outerLoop (event1 :: rest) processed =
      if event1.id ∈ processed then outerLoop rest processed
      else
        ((innerLoop event1 rest processed).current ::
            (outerLoop (innerLoop event1 rest processed).scanned
              ((innerLoop event1 rest processed).e1post.id ::
                (innerLoop event1 rest processed).processed)).1,
          (innerLoop event1 rest processed).merges +
            (outerLoop (innerLoop event1 rest processed).scanned
              ((innerLoop event1 rest processed).e1post.id ::
                (innerLoop event1 rest processed).processed)).2) := by
  have hstep : outerLoop (event1 :: rest) processed =
      outerLoopF (rest.length + 1) (event1 :: rest) processed := rfl
  rw [hstep]
  simp only [outerLoopF]
  by_cases hx : event1.id ∈ processed
  · rw [if_pos hx, if_pos hx, outerLoopF_eq rest.length rest processed (Nat.le_refl _)]
  · rw [if_neg hx, if_neg hx,
      outerLoopF_eq rest.length (innerLoop event1 rest processed).scanned
        ((innerLoop event1 rest processed).e1post.id ::
          (innerLoop event1 rest processed).processed)
        (Nat.le_of_eq (innerLoop_scanned_length rest event1 processed))]

/-- An event whose id is already processed is invisible to the outer loop's
output: the merged list and the duplicate count are those of the list
without it.  The first argument bounds the length of the prefix, for the
induction. -/
lemma outerLoop_skip_erase (x : Event) :
    ∀ (n : Nat) (s1 s2 : List Event) (processed : List (Option Int)),
      s1.length ≤ n → x.id ∈ processed →
      outerLoop (s1 ++ x :: s2) processed = outerLoop (s1 ++ s2) processed := by
  intro n
  induction n with
  | zero =>
    intro s1 s2 processed hlen hp
    cases s1 with
    | nil =>
      simp only [List.nil_append]
      rw [outerLoop_cons, if_pos hp]
    | cons e s1' => simp at hlen
  | succ m ih =>
    intro s1 s2 processed hlen hp
    cases s1 with
    | nil =>
      simp only [List.nil_append]
      rw [outerLoop_cons, if_pos hp]
    | cons e s1' =>
      simp only [List.cons_append]
      rw [outerLoop_cons, outerLoop_cons]
      split_ifs with h1
      · exact ih s1' s2 processed (by simp at hlen; omega) hp
      · rw [innerLoop_skip_splice x s1' s2 e processed hp]
        dsimp only
        have hpx : x.id ∈ (innerLoop e (s1' ++ s2) processed).e1post.id ::
            (innerLoop e (s1' ++ s2) processed).processed :=
          List.mem_cons_of_mem _
            (innerLoop_processed_subset (s1' ++ s2) e processed x.id hp)
        rw [ih ((innerLoop e (s1' ++ s2) processed).scanned.take s1'.length)
            ((innerLoop e (s1' ++ s2) processed).scanned.drop s1'.length)
            ((innerLoop e (s1' ++ s2) processed).e1post.id ::
              (innerLoop e (s1' ++ s2) processed).processed)
            (by simp only [List.length_take]; simp at hlen; omega) hpx,
          List.take_append_drop]

/-- A clean list has at least `k` events beyond its pairs. -/
lemma clean_le {l : List Event} {k : Nat} (h : Clean l k) : k ≤ l.length := by
  induction h with
  | nil => exact Nat.le_refl 0
  | single e rest k' hnone hrest ih =>
    simp only [List.length_cons]
    omega
  | paired e p l1 l2 k' hl1 hdup hl2 hrest ih =>
    simp only [List.length_cons, List.length_append] at *
    omega

/-- Main invariant of the batch consolidator: on a clean list with `k` pairs,
none of whose ids are processed yet and whose ids are pairwise distinct, the
outer loop emits one event per non-absorbed input and counts exactly `k`.
Every id the pass records is one of the pair's two original ids (the merged
id is `base.id or other.id`), so the pairwise-distinct live events stay
unprocessed and the absorbed slot is skipped from then on. -/
lemma outerLoop_clean {events : List Event} {k : Nat} (h : Clean events k) :
    ∀ processed : List (Option Int),
      (∀ y ∈ events, y.id ∉ processed) →
      events.Pairwise (fun a b => a.id ≠ b.id) →
      (outerLoop events processed).1.length = events.length - k ∧
      (outerLoop events processed).2 = k := by
  induction h with
  | nil =>
    intro processed _ _
    exact ⟨rfl, rfl⟩
  | single e rest k' hnone hrest ih =>
    intro processed hinv hpw
    have he : e.id ∉ processed := hinv e (List.mem_cons_self e rest)
    obtain ⟨hehd, hpwrest⟩ := List.pairwise_cons.mp hpw
    have hin : innerLoop e rest processed = ⟨e, e, rest, processed, 0⟩ :=
      innerLoop_no_match rest e processed
        (fun y hy => ⟨hinv y (List.mem_cons_of_mem _ hy), hnone y hy⟩)
    rw [outerLoop_cons, if_neg he, hin]
    dsimp only
    have ihr := ih (e.id :: processed)
      (fun y hy hc => by
        rcases List.mem_cons.mp hc with h | h
        · exact hehd y hy h.symm
        · exact hinv y (List.mem_cons_of_mem _ hy) h)
      hpwrest
    have hk := clean_le hrest
    constructor
    · simp only [List.length_cons, ihr.1]
      omega
    · simp only [ihr.2]
      omega
  | paired e p l1 l2 k' hl1 hdup hl2 hrest ih =>
    intro processed hinv hpw
    have he : e.id ∉ processed := hinv e (List.mem_cons_self e _)
    obtain ⟨hehd, hpwtail⟩ := List.pairwise_cons.mp hpw
    obtain ⟨hpwl1, hpwpl2, hcross⟩ := List.pairwise_append.mp hpwtail
    obtain ⟨hpvsl2, hpwl2⟩ := List.pairwise_cons.mp hpwpl2
    have hpmem : p ∈ l1 ++ p :: l2 :=
      List.mem_append_right l1 (List.mem_cons_self p l2)
    have hp : p.id ∉ processed := hinv p (List.mem_cons_of_mem _ hpmem)
    have hyne : ∀ y, y ∈ l1 ++ p :: l2 → y.id ≠ e.id :=
      fun y hy hc => (hehd y hy) hc.symm
    have hynp : ∀ y, y ∈ l1 ∨ y ∈ l2 → y.id ≠ p.id := by
      intro y hy
      rcases hy with hyl | hyr
      · exact hcross y hyl p (List.mem_cons_self p l2)
      · exact fun hc => (hpvsl2 y hyr) hc.symm
    have hynm : ∀ y : Event, y.id ≠ e.id → y.id ≠ p.id →
        y.id ≠ (merge_events e p).id := by
      intro y h1 h2
      rcases merge_events_id_choices e p with hm | hm <;> rw [hm]
      · exact h1
      · exact h2
    have hmemlift : ∀ y, y ∈ l1 ++ l2 → y ∈ l1 ++ p :: l2 := by
      intro y hy
      rcases List.mem_append.mp hy with hyl | hyr
      · exact List.mem_append_left _ hyl
      · exact List.mem_append_right _ (List.mem_cons_of_mem _ hyr)
    have hin := innerLoop_pair l1 e p l2 processed
      (fun y hy => ⟨hinv y (List.mem_cons_of_mem _ (List.mem_append_left _ hy)), hl1 y hy⟩)
      hp hdup
      (fun y hy => by
        have hymem : y ∈ l1 ++ p :: l2 :=
          List.mem_append_right _ (List.mem_cons_of_mem _ hy)
        exact ⟨hinv y (List.mem_cons_of_mem _ hymem), hynp y (Or.inr hy),
          hynm y (hyne y hymem) (hynp y (Or.inr hy)), hl2 y hy⟩)
    have hpwl12 : (l1 ++ l2).Pairwise (fun a b => a.id ≠ b.id) :=
      List.Pairwise.sublist
        (List.Sublist.append_left (List.sublist_cons_self p l2) l1) hpwtail
    have hk := clean_le hrest
    simp only [List.length_append] at hk
    rw [outerLoop_cons, if_neg he, hin]
    by_cases hb : mergeBaseIsSecond e p = true
    · rw [if_pos hb]
      dsimp only
      -- base is the partner: the merged id is recorded, the merged record
      -- occupies the partner's slot and event1's post-state is unchanged
      rw [outerLoop_skip_erase (merge_events e p) l1.length l1 l2
        (e.id :: (merge_events e p).id :: processed) (Nat.le_refl _)
        (List.mem_cons_of_mem _ (List.mem_cons_self _ _))]
      have ihr := ih (e.id :: (merge_events e p).id :: processed)
        (fun y hy hc => by
          have hymem := hmemlift y hy
          have h1 := hyne y hymem
          have h2 := hynp y (List.mem_append.mp hy)
          rcases List.mem_cons.mp hc with h | h
          · exact h1 h
          · rcases List.mem_cons.mp h with h' | h'
            · exact hynm y h1 h2 h'
            · exact hinv y (List.mem_cons_of_mem _ hymem) h')
        hpwl12
      constructor
      · simp only [List.length_cons, List.length_append, ihr.1]
        omega
      · simp only [ihr.2]
        omega
    · rw [if_neg hb]
      dsimp only
      -- base is the accumulator: the partner's own id is recorded, its slot
      -- is unchanged and event1's post-state is the merged record
      rw [outerLoop_skip_erase p l1.length l1 l2
        ((merge_events e p).id :: p.id :: processed) (Nat.le_refl _)
        (List.mem_cons_of_mem _ (List.mem_cons_self _ _))]
      have ihr := ih ((merge_events e p).id :: p.id :: processed)
        (fun y hy hc => by
          have hymem := hmemlift y hy
          have h1 := hyne y hymem
          have h2 := hynp y (List.mem_append.mp hy)
          rcases List.mem_cons.mp hc with h | h
          · exact hynm y h1 h2 h
          · rcases List.mem_cons.mp h with h' | h'
            · exact h2 h'
            · exact hinv y (List.mem_cons_of_mem _ hymem) h')
        hpwl12
      constructor
      · simp only [List.length_cons, List.length_append, ihr.1]
        omega
      · simp only [ihr.2]
        omega

/-- The per-event step fails with `ValueError` when the event has no (truthy)
source name and the source id is not registered. -/
lemma process_one_event_bad (fuel : Nat) (source_id : String) (skip : Bool)
    (store : List Event) (e : Event)
    (hbad : truthyStr e.source_name = false)
    (hsrc : SOURCES.find? (fun p => p.1 == source_id) = none) :
    process_one_event fuel source_id skip store e =
      Except.error (PyError.valueError ("No source found with ID: " ++ source_id)) := by
  simp [process_one_event, get_source_display_name, hbad, hsrc]

/-- The batch loop returns an error whenever some event in it has no truthy
source name and the source id is unregistered. -/
lemma process_new_events_loop_bad (fuel : Nat) (source_id : String) (skip : Bool) :
    ∀ (es : List Event) (store : List Event) (n u : Nat),
      (∃ e ∈ es, truthyStr e.source_name = false) →
      SOURCES.find? (fun p => p.1 == source_id) = none →
      ∃ err, process_new_events_loop fuel source_id skip es store n u = Except.error err := by
  intro es
  induction es with
  | nil =>
    intro store n u hbad _
    obtain ⟨e, he, _⟩ := hbad
    simp at he
  | cons e es' ih =>
    intro store n u hbad hsrc
    simp only [process_new_events_loop]
    cases hpe : process_one_event fuel source_id skip store e with
    | error err =>
      exact ⟨err, rfl⟩
    | ok r =>
      obtain ⟨b, hb, hbadb⟩ := hbad
      rcases List.mem_cons.mp hb with hbe | hbe
      · subst hbe
        rw [process_one_event_bad fuel source_id skip store b hbadb hsrc] at hpe
        cases hpe
      · exact ih r.1 (n + r.2.1) (u + r.2.2) ⟨b, hbe, hbadb⟩ hsrc

/-! ## Claim theorems -/

/-- Claim C1, counterexample: at the default configuration the classifier is
not symmetric.  The two events share source name and start time; the
`SequenceMatcher` title similarity is `8/9 ≥ 0.85` in one argument order and
`22/27 < 0.85` in the other. -/
theorem are_events_duplicate_asym_cex :
    are_events_duplicate defaultConfig asymEvent1 asymEvent2 = true ∧
    are_events_duplicate defaultConfig asymEvent2 asymEvent1 = false := by
  constructor <;> decide

/-- Claim C1 (amended): the duplicate classifier is symmetric, for every
configuration of the five thresholds, for every pair of events whose computed
title similarity is itself symmetric under argument swap; the source, time
and location checks are symmetric unconditionally, but the `SequenceMatcher`
title ratio is order-dependent, so full symmetry fails (see the
counterexample). -/
theorem are_events_duplicate_symm (cfg : DuplicateConfig) (e1 e2 : Event)
    (h : calculate_title_similarity e1.title e2.title =
         calculate_title_similarity e2.title e1.title) :
    are_events_duplicate cfg e1 e2 = are_events_duplicate cfg e2 e1 := by
  unfold are_events_duplicate
  rw [h, srcCondSymm, timeCondSymm, locCondSymm]

/-- Witness for C1: two events with literally equal titles. -/
theorem are_events_duplicate_symm_witness :
    are_events_duplicate defaultConfig symEvent1 symEvent2 =
    are_events_duplicate defaultConfig symEvent2 symEvent1 :=
  are_events_duplicate_symm defaultConfig symEvent1 symEvent2 rfl

/-- Claim C2 (code bug): the parent-chain walk of
`process_cross_source_duplicate` is the unbounded loop
`while topmost_parent.parent_id is not None`, with no cycle detection and no
integrity error.  On a store whose `parent_id` pointers form the cycle
`1 → 2 → 1`, the walk exhausts every step bound — the Python loop never
terminates and no error is surfaced. -/
theorem parent_walk_nonterminating_on_cycle : ∀ fuel : Nat,
    walkParents cycStore fuel cycEventA = WalkResult.outOfFuel ∧
    process_cross_source_duplicate cycStore cycEventA cycEventB fuel =
      Except.error PyError.nonTermination := by
  intro fuel
  refine ⟨(cyc_walk_out_of_fuel fuel).1, ?_⟩
  have h0 : process_cross_source_duplicate cycStore cycEventA cycEventB fuel =
      (match walkParents cycStore fuel cycEventA with
       | .root t => Except.ok (cycEventB, { cycEventB with parent_id := t.id })
       | .missingParent => Except.error PyError.attributeError
       | .outOfFuel => Except.error PyError.nonTermination) := rfl
  rw [h0, (cyc_walk_out_of_fuel fuel).1]

/-- Claim C4, counterexample: a display name absent from the registry raises
`ValueError` instead of being treated as priority `0`; the claim predicts the
comparison still returns `-1` here (unknown `0` against Peoply's `100`). -/
theorem compare_source_priorities_unknown_cex :
    compare_source_priorities "Sigma" "Peoply" =
      Except.error (PyError.valueError "No source found with display name: Sigma") := rfl

/-- Claim C4 (amended): for display names that resolve in the static registry
the comparison returns `1`, `0` or `-1` from the priority table; a display
name that does not resolve makes the whole comparison fail with `ValueError`
rather than defaulting to priority `0`. -/
theorem compare_source_priorities_trichotomy (name1 name2 : String) :
    (exceptIsOk (get_source_id_by_display_name name1) = true →
     exceptIsOk (get_source_id_by_display_name name2) = true →
     (compare_source_priorities name1 name2 = Except.ok 1 ∨
      compare_source_priorities name1 name2 = Except.ok 0 ∨
      compare_source_priorities name1 name2 = Except.ok (-1))) ∧
    ((exceptIsOk (get_source_id_by_display_name name1) = false ∨
      exceptIsOk (get_source_id_by_display_name name2) = false) →
     exceptIsOk (compare_source_priorities name1 name2) = false) := by
  unfold compare_source_priorities
  cases h1 : get_source_id_by_display_name name1 with
  | error e =>
    refine ⟨?_, ?_⟩
    · intro hok
      simp [exceptIsOk] at hok
    · intro _
      rfl
  | ok s1 =>
    cases h2 : get_source_id_by_display_name name2 with
    | error e =>
      refine ⟨?_, ?_⟩
      · intro _ hok
        simp [exceptIsOk] at hok
      · intro _
        rfl
    | ok s2 =>
      refine ⟨?_, ?_⟩
      · intro _ _
        by_cases hgt : sourcePriority s1 > sourcePriority s2
        · left
          simp [hgt]
        · by_cases hlt : sourcePriority s1 < sourcePriority s2
          · right; right
            simp [hgt, hlt]
          · right; left
            simp [hgt, hlt]
      · intro hbad
        rcases hbad with hbad | hbad <;> simp [exceptIsOk] at hbad

/-- Witness for C4: Peoply (100) against Navet (90), and the failing unknown
name. -/
theorem compare_source_priorities_trichotomy_witness :
    (compare_source_priorities "Peoply" "Navet" = Except.ok 1 ∨
     compare_source_priorities "Peoply" "Navet" = Except.ok 0 ∨
     compare_source_priorities "Peoply" "Navet" = Except.ok (-1)) ∧
    exceptIsOk (compare_source_priorities "Sigma" "Navet") = false :=
  ⟨(compare_source_priorities_trichotomy "Peoply" "Navet").1 (by decide) (by decide),
   (compare_source_priorities_trichotomy "Sigma" "Navet").2 (Or.inl (by decide))⟩

/-- Claim C6: `merge_events` is deterministic across repeated invocation:
equal input values produce the same merged record, field for field.  The
embedding is a pure function of its arguments because the Python function
reads no state other than the two events and the fixed strategy dictionary. -/
theorem merge_events_deterministic (a b a' b' : Event) (h1 : a = a') (h2 : b = b') :
    merge_events a b = merge_events a' b' ∧
    (merge_events a b).id = (merge_events a' b').id ∧
    (merge_events a b).title = (merge_events a' b').title ∧
    (merge_events a b).description = (merge_events a' b').description ∧
    (merge_events a b).start_time = (merge_events a' b').start_time ∧
    (merge_events a b).end_time = (merge_events a' b').end_time ∧
    (merge_events a b).location = (merge_events a' b').location ∧
    (merge_events a b).source_url = (merge_events a' b').source_url ∧
    (merge_events a b).source_name = (merge_events a' b').source_name ∧
    (merge_events a b).created_at = (merge_events a' b').created_at ∧
    (merge_events a b).capacity = (merge_events a' b').capacity ∧
    (merge_events a b).spots_left = (merge_events a' b').spots_left ∧
    (merge_events a b).registration_opens = (merge_events a' b').registration_opens ∧
    (merge_events a b).registration_url = (merge_events a' b').registration_url ∧
    (merge_events a b).food = (merge_events a' b').food ∧
    (merge_events a b).fetched_at = (merge_events a' b').fetched_at ∧
    (merge_events a b).parent_id = (merge_events a' b').parent_id ∧
    (merge_events a b).attachment = (merge_events a' b').attachment ∧
    (merge_events a b).author = (merge_events a' b').author := by
  subst h1
  subst h2
  exact ⟨rfl, rfl, rfl, rfl, rfl, rfl, rfl, rfl, rfl, rfl, rfl, rfl, rfl, rfl, rfl,
    rfl, rfl, rfl, rfl⟩

/-- Witness for C6, at the batch instance events. -/
theorem merge_events_deterministic_witness :
    merge_events batchEv1 batchEv2 = merge_events batchEv1 batchEv2 ∧
    (merge_events batchEv1 batchEv2).id = (merge_events batchEv1 batchEv2).id ∧
    (merge_events batchEv1 batchEv2).title = (merge_events batchEv1 batchEv2).title ∧
    (merge_events batchEv1 batchEv2).description = (merge_events batchEv1 batchEv2).description ∧
    (merge_events batchEv1 batchEv2).start_time = (merge_events batchEv1 batchEv2).start_time ∧
    (merge_events batchEv1 batchEv2).end_time = (merge_events batchEv1 batchEv2).end_time ∧
    (merge_events batchEv1 batchEv2).location = (merge_events batchEv1 batchEv2).location ∧
    (merge_events batchEv1 batchEv2).source_url = (merge_events batchEv1 batchEv2).source_url ∧
    (merge_events batchEv1 batchEv2).source_name = (merge_events batchEv1 batchEv2).source_name ∧
    (merge_events batchEv1 batchEv2).created_at = (merge_events batchEv1 batchEv2).created_at ∧
    (merge_events batchEv1 batchEv2).capacity = (merge_events batchEv1 batchEv2).capacity ∧
    (merge_events batchEv1 batchEv2).spots_left = (merge_events batchEv1 batchEv2).spots_left ∧
    (merge_events batchEv1 batchEv2).registration_opens = (merge_events batchEv1 batchEv2).registration_opens ∧
    (merge_events batchEv1 batchEv2).registration_url = (merge_events batchEv1 batchEv2).registration_url ∧
    (merge_events batchEv1 batchEv2).food = (merge_events batchEv1 batchEv2).food ∧
    (merge_events batchEv1 batchEv2).fetched_at = (merge_events batchEv1 batchEv2).fetched_at ∧
    (merge_events batchEv1 batchEv2).parent_id = (merge_events batchEv1 batchEv2).parent_id ∧
    (merge_events batchEv1 batchEv2).attachment = (merge_events batchEv1 batchEv2).attachment ∧
    (merge_events batchEv1 batchEv2).author = (merge_events batchEv1 batchEv2).author :=
  merge_events_deterministic batchEv1 batchEv2 batchEv1 batchEv2 rfl rfl

/-- Claim C7: with `require_exact_time` false (and the module's configured
`REQUIRE_SAME_LOCATION = False`), for events passing the source and title
checks, a start-time difference of exactly `time_window_minutes` classifies
as duplicate and one further minute does not (the code compares
`abs(difference) > window`, so the window edge is inclusive). -/
theorem are_events_duplicate_time_window_boundary (cfg : DuplicateConfig)
    (e1 e2 : Event)
    (hexact : cfg.require_exact_time = false)
    (hloc : cfg.require_same_location = false)
    (hsrc : cfg.require_same_source = true →
      truthyStr e1.source_name = true ∧ truthyStr e2.source_name = true ∧
      e1.source_name = e2.source_name)
    (htitle : cfg.title_similarity_threshold ≤
      calculate_title_similarity e1.title e2.title) :
    (|e1.start_time - e2.start_time| = cfg.time_window_minutes * 60 →
      are_events_duplicate cfg e1 e2 = true) ∧
    (|e1.start_time - e2.start_time| = (cfg.time_window_minutes + 1) * 60 →
      are_events_duplicate cfg e1 e2 = false) := by
  have hc1 : (cfg.require_same_source &&
      (!truthyStr e1.source_name || !truthyStr e2.source_name ||
       e1.source_name != e2.source_name)) = false := by
    cases hrs : cfg.require_same_source
    · simp
    · obtain ⟨ht1, ht2, hs⟩ := hsrc hrs
      simp [ht1, ht2, hs]
  have hc2 : ¬(calculate_title_similarity e1.title e2.title <
      cfg.title_similarity_threshold) := not_lt.mpr htitle
  constructor
  · intro hd
    have hgt : ¬(|e1.start_time - e2.start_time| > cfg.time_window_minutes * 60) := by
      rw [hd]
      omega
    simp [are_events_duplicate, hc1, hc2, hexact, hloc, hgt]
  · intro hd
    have hgt : |e1.start_time - e2.start_time| > cfg.time_window_minutes * 60 := by
      rw [hd]
      omega
    simp [are_events_duplicate, hc1, hc2, hexact, hloc, hgt]

/-- Witness for C7: same title and source, starts 120 and 121 minutes apart
at the default configuration. -/
theorem are_events_duplicate_time_window_boundary_witness :
    are_events_duplicate defaultConfig windowEvA windowEvB = true ∧
    are_events_duplicate defaultConfig windowEvA windowEvC = false :=
  ⟨(are_events_duplicate_time_window_boundary defaultConfig windowEvA windowEvB
      rfl rfl (by decide) (by decide)).1 (by decide),
   (are_events_duplicate_time_window_boundary defaultConfig windowEvA windowEvC
      rfl rfl (by decide) (by decide)).2 (by decide)⟩

/-- Claim C8, counterexample: `zeroIdEvent` is the only input with a non-null
id, yet the merged result has a null id — the strategy `e1.id or e2.id`
treats the persisted id `0` as falsy. -/
theorem merge_id_zero_dropped_cex :
    zeroIdEvent.id = some 0 ∧ noIdEvent.id = none ∧
    (merge_events zeroIdEvent noIdEvent).id = none := by
  exact ⟨rfl, rfl, rfl⟩

/-- Claim C8 (amended): if exactly one of the two inputs has a non-null id
and that id is nonzero, the merged event carries that id regardless of which
input becomes the merge base; a zero id held by the base is dropped by
Python truthiness (see the counterexample). -/
theorem merge_keeps_nonzero_persisted_id (a b : Event) (n : Int) (hn : n ≠ 0)
    (h : (a.id = some n ∧ b.id = none) ∨ (a.id = none ∧ b.id = some n)) :
    (merge_events a b).id = some n := by
  unfold merge_events
  rcases h with ⟨ha, hb⟩ | ⟨ha, hb⟩ <;>
    cases hbase : mergeBaseIsSecond a b <;>
    simp [applyMergeStrategies_id, pyOrInt, truthyInt, ha, hb, hn]

/-- Witness for C8: id 7 against a fresh record, in both argument orders. -/
theorem merge_keeps_nonzero_persisted_id_witness :
    (merge_events sevenIdEvent noIdEvent).id = some 7 ∧
    (merge_events noIdEvent sevenIdEvent).id = some 7 :=
  ⟨merge_keeps_nonzero_persisted_id sevenIdEvent noIdEvent 7 (by decide)
      (Or.inl ⟨rfl, rfl⟩),
   merge_keeps_nonzero_persisted_id noIdEvent sevenIdEvent 7 (by decide)
      (Or.inr ⟨rfl, rfl⟩)⟩

/-- Claim C9: `merge_events` allocates no new record: the value it returns is
the post-state of the base input (the one with the later `fetched_at`,
`event1` on ties or missing timestamps, missing reading as `datetime.min`),
whose fields the strategies overwrite in place, while the other input's
post-state equals its pre-state. -/
theorem merge_events_in_place (e1 e2 : Event) :
    merge_events e1 e2 = (if mergeBaseIsSecond e1 e2 then (merge_events_post e1 e2).2
                          else (merge_events_post e1 e2).1) ∧
    (if mergeBaseIsSecond e1 e2 then (merge_events_post e1 e2).1 = e1
     else (merge_events_post e1 e2).2 = e2) ∧
    mergeBaseIsSecond e1 e2 = decide (fetchedTime e1 < fetchedTime e2) := by
  refine ⟨?_, ?_, rfl⟩ <;>
    cases hb : mergeBaseIsSecond e1 e2 <;>
    simp [merge_events, merge_events_post, hb]

/-- Claim C3, counterexample: `badEvent` has no source name, and the source id
is unregistered, so its per-event processing raises `ValueError`; the single
surrounding `try` re-raises `DatabaseError` for the whole batch, and
`goodEvent` — which alone is inserted fine with counts `(1, 0)` — is never
processed.  The claim predicts the two-event batch also returns `(1, 0)`. -/
theorem process_new_events_abort_cex :
    process_new_events 10 [badEvent, goodEvent] "tick" false [] =
      Except.error (PyError.databaseError "Failed to process events") ∧
    process_new_events 10 [goodEvent] "tick" false [] =
      Except.ok ([goodEventStored], 1, 0) := by
  exact ⟨rfl, rfl⟩

/-- Claim C3 (amended): a failure while processing any single event aborts the
whole batch: the loop's exception propagates to the one `try/except` around
it and `process_new_events` raises `DatabaseError`, returning no counts; there
is no per-event logging-and-skipping.  Failure is exhibited through the
source-name resolution step (`ValueError` for an unregistered source id). -/
theorem process_new_events_aborts_on_bad_event (fuel : Nat) (events : List Event)
    (source_id : String) (skip_merging : Bool) (store : List Event)
    (hbad : ∃ e ∈ events, truthyStr e.source_name = false)
    (hsrc : SOURCES.find? (fun p => p.1 == source_id) = none) :
    exceptIsOk (process_new_events fuel events source_id skip_merging store) = false := by
  have hne : events.isEmpty = false := by
    obtain ⟨b, hb, _⟩ := hbad
    cases events
    · simp at hb
    · rfl
  obtain ⟨err, herr⟩ :=
    process_new_events_loop_bad fuel source_id skip_merging events store 0 0 hbad hsrc
  unfold process_new_events
  rw [hne, herr]
  cases err <;> rfl

/-- Witness for C3: one event without a source name, unregistered source id. -/
theorem process_new_events_aborts_on_bad_event_witness :
    exceptIsOk (process_new_events 5 [badEvent] "nope" false []) = false :=
  process_new_events_aborts_on_bad_event 5 [badEvent] "nope" false []
    ⟨badEvent, List.mem_cons_self badEvent [], rfl⟩ (by decide)

/-- Claim C5: on a list with pairwise distinct non-null ids containing exactly
`k` duplicate pairs and no duplicate chains (each event either matches nothing
after it, or matches exactly one later partner, with the merged accumulator
matching nothing further), `_find_and_merge_duplicates` returns exactly
`N - k` merged events and reports `k` duplicates. -/
theorem find_and_merge_duplicates_batch_reduction (events : List Event) (k : Nat)
    (hids : ∀ e ∈ events, e.id ≠ none)
    (hdistinct : events.Pairwise (fun a b => a.id ≠ b.id))
    (hclean : Clean events k) :
    (_find_and_merge_duplicates events).1.length = events.length - k ∧
    (_find_and_merge_duplicates events).2 = k := by
  unfold _find_and_merge_duplicates
  exact outerLoop_clean hclean [] (fun y _ hc => by simp at hc) hdistinct

/-- Witness for C5: three events, one duplicate pair (`batchEv1`, `batchEv2`)
and one single (`batchEv3`, different source): output `3 - 1` events, count `1`. -/
theorem find_and_merge_duplicates_batch_reduction_witness :
    (_find_and_merge_duplicates [batchEv1, batchEv2, batchEv3]).1.length =
      [batchEv1, batchEv2, batchEv3].length - 1 ∧
    (_find_and_merge_duplicates [batchEv1, batchEv2, batchEv3]).2 = 1 := by
  have hclean : Clean [batchEv1, batchEv2, batchEv3] 1 := by
    have h3 : Clean [batchEv3] 0 :=
      Clean.single batchEv3 [] 0 (by intro y hy; simp at hy) Clean.nil
    exact Clean.paired batchEv1 batchEv2 [] [batchEv3] 0
      (by intro y hy; simp at hy) (by decide)
      (by intro y hy; simp at hy; subst hy; decide) h3
  exact find_and_merge_duplicates_batch_reduction [batchEv1, batchEv2, batchEv3] 1
    (by decide) (by decide) hclean

/-- Claim C10, counterexample: `laundEvB` has a null id and is absorbed as a
duplicate of `laundEvA` — but it is the merge base (later `fetched_at`), so
`processed_ids.add(event2.id)` runs after its id has been overwritten to the
merged `some 5`, and `None` never enters the processed set.  The subsequent
null-id event `laundEvC` is therefore compared and kept in the merged output,
not silently omitted as the claim states. -/
theorem null_id_event_not_omitted_cex :
    laundEvB.id = none ∧ laundEvC.id = none ∧
    mergeBaseIsSecond laundEvA laundEvB = true ∧
    (merge_events laundEvA laundEvB).id = some 5 ∧
    (_find_and_merge_duplicates [laundEvA, laundEvB, laundEvC]).2 = 1 ∧
    (_find_and_merge_duplicates [laundEvA, laundEvB, laundEvC]).1 =
      [merge_events laundEvA laundEvB, laundEvC] := by
  exact ⟨rfl, rfl, rfl, rfl, by decide, by decide⟩

/-- Claim C10 (amended): the consolidator tracks processed events by ids read
after `merge_events`' in-place mutation, so absorbing a null-id event as the
merge base records its partner's id rather than `None`.  Only once `None`
actually is in the processed set (a null-id event absorbed as the non-base
side, or an event appended with its post-pass id still null) is every
subsequent null-id event treated as already processed: the inner pass leaves
the accumulator, `event1`'s post-state, the processed set and the merge count
exactly as if the event were absent, and the outer loop's merged output and
duplicate count equal those for the list without it — never compared, never
merged, silently omitted. -/
theorem null_id_events_skipped_once_none_processed (l1 l2 : List Event)
    (e current : Event) (processed : List (Option Int)) (he : e.id = none)
    (hp : (none : Option Int) ∈ processed) :
    (innerLoop current (l1 ++ e :: l2) processed).current =
      (innerLoop current (l1 ++ l2) processed).current ∧
    (innerLoop current (l1 ++ e :: l2) processed).e1post =
      (innerLoop current (l1 ++ l2) processed).e1post ∧
    (innerLoop current (l1 ++ e :: l2) processed).processed =
      (innerLoop current (l1 ++ l2) processed).processed ∧
    (innerLoop current (l1 ++ e :: l2) processed).merges =
      (innerLoop current (l1 ++ l2) processed).merges ∧
    outerLoop (l1 ++ e :: l2) processed = outerLoop (l1 ++ l2) processed := by
  have hep : e.id ∈ processed := by rw [he]; exact hp
  have hs := innerLoop_skip_splice e l1 l2 current processed hep
  refine ⟨?_, ?_, ?_, ?_,
    outerLoop_skip_erase e l1.length l1 l2 processed (Nat.le_refl _) hep⟩ <;>
    rw [hs]

/-- Witness for C10: a null-id event, with `None` already processed, is
invisible to both loops. -/
theorem null_id_events_skipped_once_none_processed_witness :
    (innerLoop batchEv1 ([batchEv1] ++ nullIdEvent :: []) [none]).current =
      (innerLoop batchEv1 ([batchEv1] ++ []) [none]).current ∧
    (innerLoop batchEv1 ([batchEv1] ++ nullIdEvent :: []) [none]).e1post =
      (innerLoop batchEv1 ([batchEv1] ++ []) [none]).e1post ∧
    (innerLoop batchEv1 ([batchEv1] ++ nullIdEvent :: []) [none]).processed =
      (innerLoop batchEv1 ([batchEv1] ++ []) [none]).processed ∧
    (innerLoop batchEv1 ([batchEv1] ++ nullIdEvent :: []) [none]).merges =
      (innerLoop batchEv1 ([batchEv1] ++ []) [none]).merges ∧
    outerLoop ([batchEv1] ++ nullIdEvent :: []) [none] =
      outerLoop ([batchEv1] ++ []) [none] :=
  null_id_events_skipped_once_none_processed [batchEv1] [] nullIdEvent batchEv1 [none]
    rfl (List.mem_cons_self none [])

end IFIEvents
